import Mathlib

/-
Verification of the conversational turn-processing loop of the pair.ai
client (React + TypeScript) against its natural-language specification.

The embedding below translates the relevant parts of the source into
Lean definitions:
  * src/types.ts            -> AppState, Message, ToolCallResponse, ...
  * src/services/geminiService.ts -> generateAIResponse, generateSpeech
    (the remote transport is abstracted as an Except-valued oracle,
    modelling that the underlying generateContent call either throws or
    returns a response object)
  * src/App.tsx             -> recognition-session configuration and
    handlers, handleUserSpeech, playback finalization
  * src/components/ChatSidebar.tsx -> typed chat submission
-/

namespace PairAI

/- ===== Data model (src/types.ts) ===== -/

inductive AppState where
  | IDLE
  | SHARING
  | GITHUB_MODE
  | LISTENING
  | PROCESSING
  | SPEAKING
deriving DecidableEq, Repr

inductive Sender where
  | user
  | ai
deriving DecidableEq, Repr

structure Message where
  id : String
  sender : Sender
  text : String
  timestamp : Nat
deriving DecidableEq, Repr

structure FunctionCall where
  name : String
  args : List (String × String)
deriving DecidableEq, Repr

structure ToolCallResponse where
  functionCalls : List FunctionCall
  text : Option String
deriving DecidableEq, Repr

/- ===== Remote model gateway (src/services/geminiService.ts) ===== -/

/-- One element of response.candidates[0].content.parts: it may or may
not carry a functionCall. -/
structure ResponsePart where
  functionCall : Option FunctionCall
deriving DecidableEq, Repr

/-- The response object of a successful generateContent call: its text
field may be absent, and the candidates[0].content.parts chain may be
absent (modelled by the outer Option). -/
structure ModelResponse where
  text : Option String
  parts : Option (List ResponsePart)
deriving DecidableEq, Repr

/-- The apostrophe character, used to build string constants of the
source verbatim. -/
def apostrophe : Char := Char.ofNat 39

def apologyText : String := "Sorry, I encountered an error."

def didntCatchText : String := "I didn" ++ String.mk [apostrophe] ++ "t catch that."

def didntHearText : String := "I didn" ++ String.mk [apostrophe] ++ "t hear you."

def notSureText : String := "I" ++ String.mk [apostrophe] ++ "m not sure what to do."

def workingText : String := "Working on it..."

/-- JavaScript (s || d): the default is taken when s is undefined or the
empty string (the empty string is falsy in JavaScript). -/
def jsOrElse (s : Option String) (d : String) : String :=
  match s with
  | none => d
  | some t => if t = "" then d else t

/-- Embedding of generateAIResponse (geminiService.ts lines 41 to 111).
The single generateContent call the invocation performs is abstracted by
the transport argument: Except.error models the call throwing, Except.ok
models a returned response object.  The try/catch of the source converts
any throw into the fixed apology with no tool calls. -/
def generateAIResponse (userPrompt : String) (imageBase64 : String)
    (isGitHubMode : Bool) (fileContext : Option String)
    (transport : Except Unit ModelResponse) : ToolCallResponse :=
  match transport with
  | Except.error _ => { functionCalls := [], text := some apologyText }
  | Except.ok response =>
    if isGitHubMode = false ∧ imageBase64 ≠ "" then
      { functionCalls := [], text := some (jsOrElse response.text didntCatchText) }
    else if isGitHubMode = true then
      let fcs := (response.parts.getD []).filterMap (fun p => p.functionCall)
      { functionCalls := fcs,
        text := some (jsOrElse response.text
          (if fcs.length > 0 then workingText else notSureText)) }
    else
      { functionCalls := [], text := some (jsOrElse response.text didntHearText) }

/- ===== Fenced-code-block scrubbing (geminiService.ts lines 148 to 151) =====

The source computes
  text.replace(three-backtick non-greedy block regex, placeholder)
globally.  We model strings as lists of characters.  splitFence finds
the first occurrence of three consecutive backticks and splits around
it; the regex global replacement is the scrub loop: find an opening
fence, find the next closing fence, replace everything from the opening
through the closing with the placeholder, continue after it.  This is
exactly the non-greedy global-match semantics: a match starts at the
leftmost fence occurrence and ends at the first fence occurrence after
the opening. -/

/-- The backtick character. -/
def tick : Char := Char.ofNat 96

/-- Does the list start with three consecutive backticks? -/
def startsFence : List Char → Bool
  | a :: b :: c :: _ => decide (a = tick) && decide (b = tick) && decide (c = tick)
  | _ => false

/-- Split at the first occurrence of three consecutive backticks:
returns (prefix before the fence, suffix after the three backticks), or
none when no fence occurs. -/
def splitFence : List Char → Option (List Char × List Char)
  | [] => none
  | c :: rest =>
    if startsFence (c :: rest) then some ([], rest.drop 2)
    else (splitFence rest).map (fun p => (c :: p.1, p.2))

/-- The spoken placeholder of the source, as characters. -/
def placeholderChars : List Char :=
  ['I', apostrophe] ++ "ve provided the code in the chat.".toList

/-- Fuel-indexed scrub loop.  Each step consumes at least six characters
of the input, so fuel equal to the input length never runs out. -/
def scrubAux : Nat → List Char → List Char
  | 0, cs => cs
  | Nat.succ fuel, cs =>
    match splitFence cs with
    | none => cs
    | some (pre, rest) =>
      match splitFence rest with
      | none => cs
      | some (_, rest2) => pre ++ placeholderChars ++ scrubAux fuel rest2

/-- Global replacement of every fenced code block by the placeholder,
the speakableText computation of generateSpeech. -/
def scrubCodeBlocks (cs : List Char) : List Char := scrubAux cs.length cs

/-- The text actually sent in the speech-synthesis request. -/
def speakableText (text : String) : String := String.mk (scrubCodeBlocks text.data)

/-- A complete fenced code block (an opening fence with a later closing
fence) occurs in the list.  This is exactly the condition under which
the source regular expression has a match. -/
def hasFencedBlock (cs : List Char) : Bool :=
  match splitFence cs with
  | none => false
  | some (_, rest) => (splitFence rest).isSome

/-- The list is empty or its first character is not a backtick. -/
def headSafe : List Char → Bool
  | [] => true
  | c :: _ => !(decide (c = tick))

/-- The list is empty or its last character is not a backtick. -/
def lastNotTick (xs : List Char) : Bool := headSafe xs.reverse

/-- The TTS response: the base64 audio payload may be absent. -/
structure TtsResponse where
  audioData : Option (List Nat)
deriving DecidableEq, Repr

/-- Embedding of generateSpeech (geminiService.ts lines 147 to 177): the
code-block scrub runs on the text before the request is made; any throw
or a missing audio payload yields null (none).  The transport oracle is
a function of the request text, recording which text is sent. -/
def generateSpeech (text : String) (transport : String → Except Unit TtsResponse) :
    Option (List Nat) :=
  match transport (speakableText text) with
  | Except.error _ => none
  | Except.ok r =>
    match r.audioData with
    | none => none
    | some d => some d

/- ===== Turn orchestration in App.tsx ===== -/

structure AppSnapshot where
  appState : AppState
  messages : List Message
deriving DecidableEq, Repr

/-- The synchronous opening of handleUserSpeech (App.tsx lines 118 to
127): set the phase to PROCESSING and append the user Message.  The
source performs no emptiness check here. -/
def handleUserSpeechStart (st : AppSnapshot) (text : String) (now : Nat) : AppSnapshot :=
  { appState := AppState.PROCESSING,
    messages := st.messages ++
      [{ id := toString now, sender := Sender.user, text := text, timestamp := now }] }

/-- The finalization of handleUserSpeech (App.tsx lines 141 to 162):
append the agent Message, set the phase to SPEAKING, then either start
playback (phase stays SPEAKING until the onended callback) or, when the
synthesis result is null or no audio context exists, set the phase to
LISTENING. -/
def handleTurnCompletion (st : AppSnapshot) (aiText : String) (now : Nat)
    (hasAudioCtx : Bool) (synthResult : Option (List Nat)) : AppSnapshot :=
  let st1 : AppSnapshot :=
    { appState := AppState.SPEAKING,
      messages := st.messages ++
        [{ id := toString (now + 1), sender := Sender.ai, text := aiText, timestamp := now }] }
  if hasAudioCtx = true then
    match synthResult with
    | some _ => st1
    | none => { st1 with appState := AppState.LISTENING }
  else { st1 with appState := AppState.LISTENING }

/- ===== Speech recognition (App.tsx lines 47 to 97) ===== -/

/-- Whitespace test of the common JavaScript whitespace characters, as
used by String.prototype.trim. -/
def isJsWhitespace (c : Char) : Bool :=
  c == ' ' || c == '\t' || c == '\n' || c == '\r'

/-- Model of JavaScript String.prototype.trim over character lists. -/
def trimChars (cs : List Char) : List Char :=
  ((cs.dropWhile isJsWhitespace).reverse.dropWhile isJsWhitespace).reverse

/-- The recognition onresult handler (App.tsx lines 72 to 77): the
utterance is submitted to handleUserSpeech only when its trimmed form is
non-empty; the returned value is the submitted utterance, if any. -/
def onresultDispatch (transcript : String) : Option String :=
  if (trimChars transcript.data).length > 0 then some transcript else none

/-- The typed-chat send handler (ChatSidebar.tsx lines 32 to 37): the
message is submitted only when the trimmed input is non-empty and the
sidebar is not in the processing state. -/
def handleSendDispatch (inputValue : String) (isProcessing : Bool) : Option String :=
  if trimChars inputValue.data ≠ [] ∧ isProcessing = false then some inputValue else none

/-- The isProcessing prop handed to the sidebar (App.tsx: appState equal
to PROCESSING). -/
def sidebarIsProcessing (phase : AppState) : Bool := decide (phase = AppState.PROCESSING)

/-- A typed chat submission as a function of the interaction phase. -/
def submitTyped (phase : AppState) (inputValue : String) : Option String :=
  handleSendDispatch inputValue (sidebarIsProcessing phase)

/-- The chat input element is disabled exactly while processing
(ChatSidebar.tsx lines 102 to 110). -/
def chatInputDisabled (phase : AppState) : Bool := sidebarIsProcessing phase

/-- The recognition-session configuration (App.tsx lines 56 to 59). -/
structure RecognitionConfig where
  continuous : Bool
  interimResults : Bool
  lang : String
deriving DecidableEq, Repr

/-- The configuration the source constructs: continuous = false,
interimResults = false, lang = en-US. -/
def newRecognitionConfig : RecognitionConfig :=
  { continuous := false, interimResults := false, lang := "en-US" }

/-- The recognition onstart handler (App.tsx lines 61 to 65): set the
phase to LISTENING unless the current phase is SPEAKING. -/
def onstartHandler (phase : AppState) : AppState :=
  if phase = AppState.SPEAKING then phase else AppState.LISTENING

/-- The state read by the recognition lifecycle: the logical mic flag,
the interaction phase, and whether a recognition session is running. -/
structure SpeechSys where
  isMicOn : Bool
  appState : AppState
  recActive : Bool
deriving DecidableEq, Repr

/-- The restart effect (App.tsx lines 83 to 97): it runs when isMicOn or
appState changes, starting the session when the mic is on and the phase
is LISTENING and stopping it otherwise. -/
def recognitionEffect (s : SpeechSys) : SpeechSys :=
  if s.isMicOn = true ∧ s.appState = AppState.LISTENING then { s with recActive := true }
  else { s with recActive := false }

/-- A recognition-session end event: the platform marks the session
inactive; the onend handler of the source (App.tsx lines 67 to 70) has
an empty body, so nothing else happens — in particular no restart and no
delay timer is scheduled, and neither effect dependency changes. -/
def applyEndEvent (s : SpeechSys) : SpeechSys :=
  { s with recActive := false }

/-- A phase change: the new phase is stored and the restart effect runs
(its dependency changed). -/
def applySetPhase (s : SpeechSys) (p : AppState) : SpeechSys :=
  recognitionEffect { s with appState := p }

/-- A mic toggle: the flag is stored and the restart effect runs. -/
def applySetMic (s : SpeechSys) (b : Bool) : SpeechSys :=
  recognitionEffect { s with isMicOn := b }

/- ===== Spec-modelled turn orchestrator (tool mode) ===== -/

inductive GatewayOp where
  | listFilesOp
  | readFileOp (path : String)
  | createChangeOp (path : String) (content : String) (description : String)
deriving DecidableEq, Repr

/-- Look an argument up in a tool-call argument mapping. -/
def lookupArg (args : List (String × String)) (key : String) : String :=
  match args.find? (fun a => a.1 == key) with
  | some a => a.2
  | none => ""

/-- Map a tool-call request to the matching Repository Gateway
operation, by the declared tool names of geminiService.ts. -/
def toGatewayOp (fc : FunctionCall) : Option GatewayOp :=
  if fc.name = "list_files" then some GatewayOp.listFilesOp
  else if fc.name = "read_file" then some (GatewayOp.readFileOp (lookupArg fc.args "path"))
  else if fc.name = "create_pull_request" then
    some (GatewayOp.createChangeOp (lookupArg fc.args "path")
      (lookupArg fc.args "content") (lookupArg fc.args "description"))
  else none

/-- Modelled from the spec: the GitHub-mode turn orchestrator
(processTurn, spec section 4.5) is not among the sources — src/App.tsx
holds an earlier revision whose handleUserSpeech never dispatches tool
calls, and the revision with repository tool dispatch is missing.  Per
the spec, the orchestrator consumes one model response per step; if the
response carries tool calls it dispatches the first one only, a
create-change call is terminal, and otherwise it recurses into the next
model response.  The model responses of the session are supplied as an
oracle list; the result pairs each consumed response with the gateway
operations dispatched for it. -/
def processTurn : List ToolCallResponse → List (ToolCallResponse × List GatewayOp)
  | [] => []
  | r :: rest =>
    match r.functionCalls with
    | [] => [(r, [])]
    | fc :: _ =>
      let ops := (r.functionCalls.take 1).filterMap toGatewayOp
      if fc.name = "create_pull_request" then [(r, ops)]
      else (r, ops) :: processTurn rest

/-- A concrete model response requesting two tool calls at once. -/
def sampleToolResponse : ToolCallResponse :=
  { functionCalls :=
      [{ name := "list_files", args := [] },
       { name := "read_file", args := [("path", "src/App.tsx")] }],
    text := some "Working on it..." }

end PairAI

namespace PairAI

/- ===== Theorems ===== -/

/-- C4: whenever speech synthesis returns null, the finalization step
sets the interaction phase to LISTENING; the phase never remains
SPEAKING after a null synthesis result. -/
theorem null_synthesis_goes_listening :
    ∀ (st : AppSnapshot) (aiText : String) (now : Nat) (hasAudioCtx : Bool),
      (handleTurnCompletion st aiText now hasAudioCtx none).appState = AppState.LISTENING := by
  intro st aiText now hasAudioCtx
  cases hasAudioCtx <;> rfl

/-- C6 counterexample: the constructed recognition session does not have
interim results enabled — the source sets interimResults to false, so
the claimed configuration (continuous disabled and interim results
enabled) is refuted on the constructed configuration itself. -/
theorem recognition_config_counterexample :
    ¬ (newRecognitionConfig.continuous = false ∧ newRecognitionConfig.interimResults = true) := by
  decide

/-- C6 amended: the recognition session is configured with
continuous = false, interim results disabled, and the fixed locale
en-US. -/
theorem recognition_config_amended :
    newRecognitionConfig.continuous = false ∧
    newRecognitionConfig.interimResults = false ∧
    newRecognitionConfig.lang = "en-US" := by
  refine ⟨rfl, rfl, rfl⟩

/-- C10: the recognition onstart handler leaves the SPEAKING phase
untouched, and moves every other phase to LISTENING; a session start
never moves the application out of the speaking phase. -/
theorem onstart_never_exits_speaking :
    onstartHandler AppState.SPEAKING = AppState.SPEAKING ∧
    ∀ ph : AppState, ph ≠ AppState.SPEAKING → onstartHandler ph = AppState.LISTENING := by
  constructor
  · rfl
  · intro ph h
    unfold onstartHandler
    rw [if_neg h]

/-- C10 witness: the handler keeps SPEAKING and sends IDLE to
LISTENING. -/
theorem onstart_never_exits_speaking_witness :
    onstartHandler AppState.SPEAKING = AppState.SPEAKING ∧
    onstartHandler AppState.IDLE = AppState.LISTENING :=
  ⟨onstart_never_exits_speaking.1,
   onstart_never_exits_speaking.2 AppState.IDLE (by decide)⟩

/-- C2: for every input (any prompt, image, mode, file context) and
every transport outcome, generateAIResponse returns a result whose text
field is defined; on a transport failure it returns the fixed apology
with an empty tool-call list rather than propagating the exception. -/
theorem generateAIResponse_text_always_defined :
    ∀ (p img : String) (m : Bool) (fctx : Option String) (tr : Except Unit ModelResponse),
      (generateAIResponse p img m fctx tr).text.isSome = true ∧
      generateAIResponse p img m fctx (Except.error ()) =
        { functionCalls := [], text := some apologyText } := by
  intro p img m fctx tr
  constructor
  · cases tr with
    | error e => rfl
    | ok r =>
      unfold generateAIResponse
      split_ifs <;> rfl
  · rfl

/-- C9: with isGitHubMode equal to false, every invocation of
generateAIResponse — any prompt, any image, any transport outcome —
returns an empty functionCalls list. -/
theorem generateAIResponse_no_tools_outside_github :
    ∀ (p img : String) (fctx : Option String) (tr : Except Unit ModelResponse),
      (generateAIResponse p img false fctx tr).functionCalls = [] := by
  intro p img fctx tr
  cases tr with
  | error e => rfl
  | ok r =>
    unfold generateAIResponse
    split_ifs <;> first | rfl | contradiction

/-- C3 counterexample: the whitespace-only utterance consisting of one
space (its trimmed form is empty by the model's own trim) submitted
directly to handleUserSpeech from the LISTENING phase with an empty
transcript does append a user Message and does change the phase to
PROCESSING — the entry point itself performs no emptiness check, so the
claim as stated is false. -/
theorem whitespace_entry_counterexample :
    trimChars (String.data " ") = [] ∧
    (handleUserSpeechStart { appState := AppState.LISTENING, messages := [] } " " 0).messages ≠ [] ∧
    (handleUserSpeechStart { appState := AppState.LISTENING, messages := [] } " " 0).appState =
      AppState.PROCESSING := by
  decide

/-- C3 amended: the rejection of empty or whitespace-only utterances
happens at the call sites, not inside handleUserSpeech: the recognition
onresult handler submits nothing when the trimmed transcript is empty,
and the typed-chat send handler submits nothing when the trimmed input
is empty, so no Message is appended, the phase is unchanged, and no
gateway call is made for such utterances arriving through either
entry route. -/
theorem whitespace_rejected_at_call_sites :
    ∀ t : String, trimChars t.data = [] →
      onresultDispatch t = none ∧ ∀ b : Bool, handleSendDispatch t b = none := by
  intro t h
  constructor
  · unfold onresultDispatch
    rw [h]
    rfl
  · intro b
    unfold handleSendDispatch
    rw [if_neg]
    rintro ⟨h1, -⟩
    exact h1 h

/-- C3 amended witness: the two-space utterance is dropped by both call
sites. -/
theorem whitespace_rejected_witness :
    onresultDispatch "  " = none ∧ handleSendDispatch "  " false = none :=
  ⟨(whitespace_rejected_at_call_sites "  " (by decide)).1,
   (whitespace_rejected_at_call_sites "  " (by decide)).2 false⟩

/-- C7 counterexample: a recognition-session end event arriving with the
mic on and the phase LISTENING leaves the session stopped — the onend
handler body is empty, no restart happens and no delay timer exists, and
neither effect dependency changes, so the claimed auto-restart is false
on the code. -/
theorem onend_no_restart_counterexample :
    applyEndEvent { isMicOn := true, appState := AppState.LISTENING, recActive := true } =
      { isMicOn := true, appState := AppState.LISTENING, recActive := false } := by
  rfl

/-- C7 amended: the onend handler performs no restart at all: an end
event always leaves the session inactive and changes neither effect
dependency.  The session is (re)started only by the state-change effect,
which runs when the mic flag or the phase changes and starts the session
exactly when the mic is on and the new phase is LISTENING — so a session
ending while the phase is PROCESSING stays stopped. -/
theorem onend_amended :
    ∀ (s : SpeechSys) (p : AppState),
      (applyEndEvent s).recActive = false ∧
      (applyEndEvent s).isMicOn = s.isMicOn ∧
      (applyEndEvent s).appState = s.appState ∧
      (applySetPhase s p).recActive = (s.isMicOn && decide (p = AppState.LISTENING)) := by
  intro s p
  refine ⟨rfl, rfl, rfl, ?_⟩
  rcases s with ⟨m, stt, r⟩
  cases m <;> cases p <;> rfl

/-- C8 counterexample: a non-empty typed message submitted while the
phase is PROCESSING is not dispatched — the send handler requires the
sidebar not to be processing, so the claim that a typed submission is
never blocked by phase is false. -/
theorem typed_submit_blocked_while_processing :
    submitTyped AppState.PROCESSING "hello" = none := by
  rfl

/-- C8 amended: a typed submission is blocked exactly during the
PROCESSING phase (the send handler and the disabled input both gate on
isProcessing): in every other phase, including SPEAKING, a non-empty
typed message is dispatched and starts a new turn, so overlapping turns
remain possible while the agent is speaking. -/
theorem typed_submit_amended :
    ∀ (ph : AppState) (input : String), ph ≠ AppState.PROCESSING → trimChars input.data ≠ [] →
      submitTyped ph input = some input ∧ submitTyped AppState.PROCESSING input = none := by
  intro ph input h1 h2
  constructor
  · unfold submitTyped handleSendDispatch sidebarIsProcessing
    rw [if_pos]
    exact ⟨h2, decide_eq_false h1⟩
  · unfold submitTyped handleSendDispatch sidebarIsProcessing
    rw [if_neg]
    rintro ⟨-, hc⟩
    simp at hc

/-- C8 amended witness: the typed message hi is dispatched during
SPEAKING and blocked during PROCESSING. -/
theorem typed_submit_amended_witness :
    submitTyped AppState.SPEAKING "hi" = some "hi" ∧
    submitTyped AppState.PROCESSING "hi" = none :=
  typed_submit_amended AppState.SPEAKING "hi" (by decide) (by decide)

/-- C1: in the spec-modelled tool-mode orchestrator, every consumed
model response causes at most one Repository Gateway operation to be
dispatched, even when the response requests several tool calls. -/
theorem processTurn_at_most_one_gateway_op :
    ∀ (oracle : List ToolCallResponse) (q : ToolCallResponse × List GatewayOp),
      q ∈ processTurn oracle → q.2.length ≤ 1 := by
  intro oracle
  induction oracle with
  | nil =>
    intro q hq
    simp [processTurn] at hq
  | cons r rest ih =>
    intro q hq
    simp only [processTurn] at hq
    cases hfc : r.functionCalls with
    | nil =>
      rw [hfc] at hq
      simp at hq
      rw [hq]
      simp
    | cons fc tl =>
      rw [hfc] at hq
      simp only [List.take_succ_cons, List.take_zero] at hq
      have hops : (List.filterMap toGatewayOp [fc]).length ≤ 1 := by
        rcases h : toGatewayOp fc with _ | op <;> simp [List.filterMap_cons, h]
      by_cases hname : fc.name = "create_pull_request"
      · rw [if_pos hname] at hq
        simp only [List.mem_singleton] at hq
        rw [hq]
        exact hops
      · rw [if_neg hname] at hq
        rcases List.mem_cons.mp hq with h | h
        · rw [h]
          exact hops
        · exact ih q h

/-- C1 witness: a model response that requests two tool calls at once
results in a single dispatched gateway operation. -/
theorem processTurn_at_most_one_gateway_op_witness :
    ((sampleToolResponse, [GatewayOp.listFilesOp]) : ToolCallResponse × List GatewayOp).2.length ≤ 1 :=
  processTurn_at_most_one_gateway_op [sampleToolResponse]
    (sampleToolResponse, [GatewayOp.listFilesOp]) (by decide)

/- ===== Helper lemmas for the code-block scrub (claim C5) ===== -/

/-- When splitFence finds a fence, the input decomposes as the returned
prefix, three backticks, and the returned suffix, and the prefix itself
contains no fence. -/
theorem splitFence_eq : ∀ (cs pre rest : List Char), splitFence cs = some (pre, rest) →
    cs = pre ++ tick :: tick :: tick :: rest ∧ splitFence pre = none := by
  intro cs
  induction cs with
  | nil =>
    intro pre rest h
    simp [splitFence] at h
  | cons c cs ih =>
    intro pre rest h
    simp only [splitFence] at h
    by_cases hf : startsFence (c :: cs) = true
    · rw [if_pos hf] at h
      simp only [Option.some.injEq, Prod.mk.injEq] at h
      obtain ⟨hp, hr⟩ := h
      subst hp
      cases cs with
      | nil => simp [startsFence] at hf
      | cons b cs2 =>
        cases cs2 with
        | nil => simp [startsFence] at hf
        | cons d cs3 =>
          simp only [startsFence, Bool.and_eq_true, decide_eq_true_eq] at hf
          obtain ⟨⟨h1, h2⟩, h3⟩ := hf
          subst h1; subst h2; subst h3
          simp only [List.drop_succ_cons, List.drop_zero] at hr
          subst hr
          exact ⟨rfl, rfl⟩
    · rw [if_neg hf] at h
      cases hsf : splitFence cs with
      | none => rw [hsf] at h; simp at h
      | some p =>
        obtain ⟨p1, p2⟩ := p
        rw [hsf] at h
        simp only [Option.map_some', Option.some.injEq, Prod.mk.injEq] at h
        obtain ⟨hp, hr⟩ := h
        subst hp; subst hr
        obtain ⟨hdec, hpre1⟩ := ih p1 p2 hsf
        refine ⟨by rw [hdec]; rfl, ?_⟩
        have hstart : startsFence (c :: p1) = false := by
          cases p1 with
          | nil => rfl
          | cons a p1' =>
            cases p1' with
            | nil => rfl
            | cons b p1'' =>
              rw [Bool.not_eq_true] at hf
              rw [hdec] at hf
              simp only [List.cons_append, startsFence] at hf ⊢
              exact hf
        simp only [splitFence, hstart, Bool.false_eq_true, if_false, hpre1, Option.map_none']

/-- The input of a successful splitFence is three characters longer than
the two returned pieces combined. -/
theorem splitFence_length : ∀ (cs pre rest : List Char), splitFence cs = some (pre, rest) →
    cs.length = pre.length + rest.length + 3 := by
  intro cs pre rest h
  have hd := (splitFence_eq cs pre rest h).1
  rw [hd]
  simp [List.length_append]
  omega

/-- A cons list whose last character is not a backtick keeps that
property after dropping its head. -/
theorem lastNotTick_of_cons : ∀ (x : Char) (xs : List Char),
    lastNotTick (x :: xs) = true → lastNotTick xs = true := by
  intro x xs h
  cases xs with
  | nil => rfl
  | cons a t =>
    unfold lastNotTick at h ⊢
    rw [List.reverse_cons] at h
    cases hrev : (a :: t).reverse with
    | nil => exact absurd hrev (by simp)
    | cons c r =>
      rw [hrev] at h
      simp only [List.cons_append, headSafe] at h
      exact h


/-- A head-safe non-empty list stays head-safe under appending on the
right. -/
theorem headSafe_append_left : ∀ (xs ys : List Char),
    headSafe xs = true → xs ≠ [] → headSafe (xs ++ ys) = true := by
  intro xs ys h hne
  cases xs with
  | nil => exact absurd rfl hne
  | cons c t =>
    simp only [headSafe] at h
    simp only [List.cons_append, headSafe]
    exact h

/-- The spoken placeholder contains no fence. -/
theorem splitFence_placeholder : splitFence placeholderChars = none := by decide

/-- The spoken placeholder starts with a non-backtick character. -/
theorem headSafe_placeholder : headSafe placeholderChars = true := by decide

/-- Appending after a fence-free left part whose boundary cannot form a
straddling fence (the right part starts with a non-backtick, or the left
part ends with a non-backtick) shifts splitFence to the right part. -/
theorem splitFence_append : ∀ (xs ys : List Char), splitFence xs = none →
    (headSafe ys = true ∨ lastNotTick xs = true) →
    splitFence (xs ++ ys) = (splitFence ys).map (fun p => (xs ++ p.1, p.2)) := by
  intro xs
  induction xs with
  | nil =>
    intro ys hnone hsafe
    simp only [List.nil_append]
    cases splitFence ys <;> simp
  | cons x xs ih =>
    intro ys hnone hsafe
    have hf : startsFence (x :: xs) = false := by
      by_contra hcon
      rw [Bool.not_eq_false] at hcon
      simp [splitFence, hcon] at hnone
    have hxs : splitFence xs = none := by
      have h2 := hnone
      simp only [splitFence, hf, Bool.false_eq_true, if_false] at h2
      exact Option.map_eq_none'.mp h2
    have hsafe' : headSafe ys = true ∨ lastNotTick xs = true := by
      rcases hsafe with h | h
      · exact Or.inl h
      · exact Or.inr (lastNotTick_of_cons x xs h)
    have hf2 : startsFence (x :: (xs ++ ys)) = false := by
      cases xs with
      | nil =>
        cases ys with
        | nil => rfl
        | cons c ys' =>
          cases ys' with
          | nil => rfl
          | cons d ys'' =>
            rcases hsafe with h | h
            · simp only [headSafe, Bool.not_eq_eq_eq_not, Bool.not_true,
                decide_eq_false_iff_not] at h
              simp [startsFence, h]
            · simp only [lastNotTick, List.reverse_cons, List.reverse_nil, List.nil_append,
                headSafe, Bool.not_eq_eq_eq_not, Bool.not_true, decide_eq_false_iff_not] at h
              simp [startsFence, h]
      | cons a xs' =>
        cases xs' with
        | nil =>
          cases ys with
          | nil => simp [startsFence]
          | cons c ys'' =>
            rcases hsafe with h | h
            · simp only [headSafe, Bool.not_eq_eq_eq_not, Bool.not_true,
                decide_eq_false_iff_not] at h
              simp [startsFence, h]
            · simp only [lastNotTick, List.reverse_cons, List.reverse_nil, List.nil_append,
                List.cons_append, headSafe, Bool.not_eq_eq_eq_not, Bool.not_true,
                decide_eq_false_iff_not] at h
              simp [startsFence, h]
        | cons b xs'' =>
          simp only [List.cons_append, startsFence] at hf ⊢
          exact hf
    rw [List.cons_append]
    simp only [splitFence, hf2, Bool.false_eq_true, if_false]
    rw [ih ys hxs hsafe']
    cases splitFence ys <;> simp

/-- The scrub loop leaves no complete fenced block behind: every
replacement inserts a placeholder whose boundary characters cannot merge
with the surrounding text into a new fence, the surviving prefix pieces
are fence-free, and a trailing unmatched opening fence has no closing
fence. -/
theorem scrubAux_no_block : ∀ (fuel : Nat) (cs : List Char), cs.length ≤ fuel →
    hasFencedBlock (scrubAux fuel cs) = false := by
  intro fuel
  induction fuel with
  | zero =>
    intro cs hlen
    have hnil : cs = [] := List.length_eq_zero.mp (Nat.le_zero.mp hlen)
    rw [hnil]
    rfl
  | succ fuel ih =>
    intro cs hlen
    cases h1 : splitFence cs with
    | none =>
      have e : scrubAux (fuel + 1) cs = cs := by simp only [scrubAux, h1]
      rw [e]
      simp only [hasFencedBlock, h1]
    | some p1 =>
      obtain ⟨pre, rest⟩ := p1
      cases h2 : splitFence rest with
      | none =>
        have e : scrubAux (fuel + 1) cs = cs := by simp only [scrubAux, h1, h2]
        rw [e]
        simp only [hasFencedBlock, h1, h2]
        rfl
      | some p2 =>
        obtain ⟨mid, rest2⟩ := p2
        have e : scrubAux (fuel + 1) cs = pre ++ placeholderChars ++ scrubAux fuel rest2 := by
          simp only [scrubAux, h1, h2]
        rw [e]
        have hpre : splitFence pre = none := (splitFence_eq cs pre rest h1).2
        have hxs : splitFence (pre ++ placeholderChars) = none := by
          rw [splitFence_append pre placeholderChars hpre (Or.inl headSafe_placeholder)]
          rw [splitFence_placeholder]
          rfl
        have hlast : lastNotTick (pre ++ placeholderChars) = true := by
          unfold lastNotTick
          rw [List.reverse_append]
          exact headSafe_append_left _ _ (by decide) (by decide)
        have hlen2 : rest2.length ≤ fuel := by
          have l1 := splitFence_length cs pre rest h1
          have l2 := splitFence_length rest mid rest2 h2
          omega
        have ihr := ih rest2 hlen2
        have hmap := splitFence_append (pre ++ placeholderChars) (scrubAux fuel rest2)
          hxs (Or.inr hlast)
        unfold hasFencedBlock
        rw [hmap]
        cases h3 : splitFence (scrubAux fuel rest2) with
        | none => rfl
        | some q =>
          obtain ⟨a, b⟩ := q
          simp only [Option.map_some']
          unfold hasFencedBlock at ihr
          rw [h3] at ihr
          exact ihr

/-- C5: every fenced code block of the text handed to speech synthesis
has been replaced before the synthesis request is made: the request text
computed by generateSpeech contains no complete fenced code block, so no
fenced block content is ever passed verbatim to synthesis. -/
theorem speakable_text_has_no_fenced_block :
    ∀ text : String, hasFencedBlock (speakableText text).data = false := by
  intro text
  show hasFencedBlock (scrubCodeBlocks text.data) = false
  exact scrubAux_no_block text.data.length text.data (Nat.le_refl _)

end PairAI
